import Mathlib

/-!
Verification development for the Delta Chat core API contract
(`deltachat-ffi/deltachat.h`).  The running Rust core is not part of the
reviewed tree, so the behavioural definitions below are shallow embeddings
built from the header's documented semantics and, where the header is
silent, from the specification's wording (such definitions carry a
`Modelled from the spec:` doc comment).
-/

namespace DeltaChat

/-! ## Message states (header constants DC_STATE_*) -/

/-- Message states, one per DC_STATE_* constant of the header. -/
inductive MsgState
  | undefined
  | inFresh
  | inNoticed
  | inSeen
  | outPreparing
  | outDraft
  | outPending
  | outFailed
  | outDelivered
  | outMdnRcvd
deriving DecidableEq, Repr, Fintype

/-- Numeric codes of the DC_STATE_* constants in the header. -/
def msgStateCode : MsgState → Nat
  | .undefined => 0
  | .inFresh => 10
  | .inNoticed => 13
  | .inSeen => 16
  | .outPreparing => 18
  | .outDraft => 19
  | .outPending => 20
  | .outFailed => 24
  | .outDelivered => 26
  | .outMdnRcvd => 28

/-- The state transitions documented in the header: the `dc_msg_get_state`
state list, DC_EVENT_MSG_DELIVERED ("state changed to DELIVERED"),
DC_EVENT_MSG_FAILED ("state changed from DC_STATE_OUT_PENDING or
DC_STATE_OUT_DELIVERED to DC_STATE_OUT_FAILED") and DC_EVENT_MSG_READ
("state changed from DC_STATE_OUT_DELIVERED to DC_STATE_OUT_MDN_RCVD").
The edge `outDelivered → outFailed` is explicit in the header:
"already delivered messages may get into the state DC_STATE_OUT_FAILED
if we get such a hint from the server". -/
def msgStateTransition : MsgState → MsgState → Bool
  | .inFresh, .inNoticed => true
  | .inNoticed, .inSeen => true
  | .outPreparing, .outDraft => true
  | .outPreparing, .outPending => true
  | .outDraft, .outPending => true
  | .outPending, .outDelivered => true
  | .outPending, .outFailed => true
  | .outDelivered, .outFailed => true
  | .outDelivered, .outMdnRcvd => true
  | _, _ => false

/-- The transition set the claim (spec §4.2/§8) lists: exactly the edges of
`fresh→noticed→seen` and `preparing→draft|pending→delivered|failed,
delivered→mdn-received`; in particular it omits `delivered→failed`. -/
def claimedMsgStateTransition : MsgState → MsgState → Bool
  | .inFresh, .inNoticed => true
  | .inNoticed, .inSeen => true
  | .outPreparing, .outDraft => true
  | .outPreparing, .outPending => true
  | .outDraft, .outPending => true
  | .outPending, .outDelivered => true
  | .outPending, .outFailed => true
  | .outDelivered, .outMdnRcvd => true
  | _, _ => false

/-- A rank function witnessing that the documented transitions only move
forward: it orders each lifecycle chain and places `outFailed` above
`outDelivered`, since the header allows failing an already-delivered
message. -/
def msgStateRank : MsgState → Nat
  | .undefined => 0
  | .inFresh => 1
  | .inNoticed => 2
  | .inSeen => 3
  | .outPreparing => 1
  | .outDraft => 2
  | .outPending => 3
  | .outDelivered => 4
  | .outMdnRcvd => 5
  | .outFailed => 6

/-- Incoming-message states. -/
def isIncoming : MsgState → Bool
  | .inFresh | .inNoticed | .inSeen => true
  | _ => false

/-! ## Per-message state transformers used by the core operations.

These are the projections, onto the state field, of the operations the
header documents: marking noticed (dc_marknoticed_chat / archiving),
marking seen (dc_markseen_msgs), and the SMTP-job outcomes (delivered /
failed / MDN received). -/

/-- Marking a message noticed: a fresh message becomes noticed, any other
state is untouched (header: "_Noticed_ messages are no longer _fresh_"). -/
def noticeState : MsgState → MsgState
  | .inFresh => .inNoticed
  | s => s

/-- Marking a message seen via dc_markseen_msgs.  In a real chat an
incoming message becomes seen; a message not in a real chat (e.g. a
contact request in the deaddrop) "is only marked as NOTICED" (header). -/
def markseenState (realChat : Bool) : MsgState → MsgState
  | .inFresh => if realChat then .inSeen else .inNoticed
  | .inNoticed => if realChat then .inSeen else .inNoticed
  | s => s

/-- Successful SMTP-job delivery: a pending message becomes delivered. -/
def deliverState : MsgState → MsgState
  | .outPending => .outDelivered
  | s => s

/-- Unrecoverable send failure: a pending or delivered message becomes
failed (DC_EVENT_MSG_FAILED). -/
def failState : MsgState → MsgState
  | .outPending => .outFailed
  | .outDelivered => .outFailed
  | s => s

/-- Read-confirmation received: a delivered message becomes mdn-received
(DC_EVENT_MSG_READ). -/
def mdnState : MsgState → MsgState
  | .outDelivered => .outMdnRcvd
  | s => s

/-! ## Claim C1 -/

/-- C1 counterexample: the header documents the transition
`outDelivered → outFailed` (DC_EVENT_MSG_FAILED: "State changed from
DC_STATE_OUT_PENDING or DC_STATE_OUT_DELIVERED to DC_STATE_OUT_FAILED"),
but the claim's transition list omits that edge and asserts that a
delivered message never transitions to failed. -/
theorem msgState_delivered_to_failed_cex :
    msgStateTransition .outDelivered .outFailed = true ∧
    claimedMsgStateTransition .outDelivered .outFailed = false := by decide

/-- C1 (amended): every documented transition strictly increases the
forward rank (so no operation moves a state backward with respect to the
order that, as the header requires, places failed after delivered);
failed is terminal (no documented transition leaves it); every transition
of the claim's list is among the documented ones; and every per-message
state transformer used by the core operations only moves states forward
and fixes the failed state. -/
theorem msgState_forward_amended :
    (∀ s t, msgStateTransition s t = true → msgStateRank s < msgStateRank t) ∧
    (∀ t, msgStateTransition .outFailed t = false) ∧
    (∀ s t, claimedMsgStateTransition s t = true → msgStateTransition s t = true) ∧
    (∀ s, msgStateRank s ≤ msgStateRank (noticeState s) ∧
          msgStateRank s ≤ msgStateRank (markseenState true s) ∧
          msgStateRank s ≤ msgStateRank (markseenState false s) ∧
          msgStateRank s ≤ msgStateRank (deliverState s) ∧
          msgStateRank s ≤ msgStateRank (failState s) ∧
          msgStateRank s ≤ msgStateRank (mdnState s)) ∧
    (noticeState .outFailed = .outFailed ∧
     markseenState true .outFailed = .outFailed ∧
     markseenState false .outFailed = .outFailed ∧
     deliverState .outFailed = .outFailed ∧
     failState .outFailed = .outFailed ∧
     mdnState .outFailed = .outFailed) := by decide

/-! ## Secure-join progress (claim C2)

Modelled from the spec: the secure-join engine itself (Rust module) is not
in the reviewed tree; the model below follows spec §4.4 and the header's
DC_EVENT_SECUREJOIN_INVITER_PROGRESS / DC_EVENT_SECUREJOIN_JOINER_PROGRESS
documentation of the progress codes. -/

/-- Handshake messages received by the inviter over the normal
send/fetch pipeline (header: vg/vc request, vg/vc request-with-auth,
vg-member-added-received). -/
inductive InviterMsg
  | request
  | requestWithAuth
  | memberAddedReceived
deriving DecidableEq, Repr

/-- Steps observed by the joiner: sending the auth request and receiving
the inviter's member-added/contact-confirm answer. -/
inductive JoinerStep
  | authSent
  | confirmReceived
deriving DecidableEq, Repr

/-- Modelled from the spec: inviter-progress events emitted on receiving
one handshake message (header: 300 = request received, 600 =
request-with-auth received and member-added/contact-confirm sent, 800 =
member-added-received, "only sent for the verified-group-protocol",
1000 = protocol finished).  For an unverified target the protocol
finishes right after the auth-confirmation is sent; for a verified group
it finishes after the member-added acknowledgment. -/
def inviterEmit (verifiedGroup : Bool) : InviterMsg → List Nat
  | .request => [300]
  | .requestWithAuth => if verifiedGroup then [600] else [600, 1000]
  | .memberAddedReceived => if verifiedGroup then [800, 1000] else []

/-- Modelled from the spec: joiner-progress events (header/spec: 400 =
auth sent, awaiting inviter confirmation; 1000 = done). -/
def joinerEmit : JoinerStep → List Nat
  | .authSent => [400]
  | .confirmReceived => [1000]

/-- The handshake messages the inviter receives in the scenario of the
claim: a join request, then the auth request it confirms, and — for a
verified group only — the member-added acknowledgment. -/
def inviterScenarioMsgs (verifiedGroup : Bool) : List InviterMsg :=
  [.request, .requestWithAuth] ++ if verifiedGroup then [.memberAddedReceived] else []

/-- Inviter-progress events emitted over the whole scenario. -/
def inviterScenarioEvents (verifiedGroup : Bool) : List Nat :=
  ((inviterScenarioMsgs verifiedGroup).map (inviterEmit verifiedGroup)).flatten

/-- The steps the joiner goes through in the scenario: it sends the auth
request and later receives the inviter's confirmation. -/
def joinerScenarioSteps : List JoinerStep := [.authSent, .confirmReceived]

/-- Joiner-progress events emitted over the whole scenario. -/
def joinerScenarioEvents : List Nat :=
  (joinerScenarioSteps.map joinerEmit).flatten

/-- Strictly-increasing check for an event sequence. -/
def strictIncr : List Nat → Bool
  | [] => true
  | [_] => true
  | a :: b :: r => a < b && strictIncr (b :: r)

/-- C2: in the handshake scenario (inviter receives the join request,
confirms it, joiner receives the auth-confirmation) the inviter progress
sequence is exactly 300, 600, then 800 iff the target chat is a verified
group, then 1000; the joiner progress sequence is exactly 400 then 1000;
and both sequences are strictly increasing. -/
theorem securejoin_progress_sequences :
    (∀ v, inviterScenarioEvents v =
        [300, 600] ++ (if v then [800] else []) ++ [1000]) ∧
    (∀ v, strictIncr (inviterScenarioEvents v) = true) ∧
    joinerScenarioEvents = [400, 1000] ∧
    strictIncr joinerScenarioEvents = true := by decide

/-! ## Worker-lane interrupt contract (claim C9)

Modelled from the spec: the job-queue worker loop (Rust module) is not in
the reviewed tree; the model follows the header documentation of
dc_interrupt_imap_idle / dc_interrupt_smtp_idle and spec §4.1: an
interrupt wakes a blocked idle immediately; it does not affect a thread
inside perform-jobs/fetch, but sets a flag that makes the worker's next
idle call return immediately instead of blocking. -/

/-- Where the lane's worker thread currently is. -/
inductive LaneLoc
  | outside
  | inPerformJobs
  | inFetch
  | blockedInIdle
deriving DecidableEq, Repr, Fintype

/-- One worker lane: the thread's location and the pending-interrupt flag. -/
structure LaneState where
  loc : LaneLoc
  interruptFlag : Bool
deriving DecidableEq, Repr

/-- Modelled from the spec: the cross-thread interrupt call.  A thread
blocked in idle returns immediately (the wakeup consumes the flag);
a thread inside perform-jobs/fetch (or outside) is unaffected, only the
flag is set for its next idle call. -/
def interruptIdle (s : LaneState) : LaneState :=
  match s.loc with
  | .blockedInIdle => { loc := .outside, interruptFlag := false }
  | _ => { s with interruptFlag := true }

/-- Modelled from the spec: the worker thread entering idle.  With a
pending interrupt the call returns immediately (consuming the flag);
otherwise the thread blocks until interrupted. -/
def idleEnter (s : LaneState) : LaneState :=
  if s.interruptFlag then { loc := .outside, interruptFlag := false }
  else { s with loc := .blockedInIdle }

/-- C9: interrupting a lane whose thread is blocked in idle makes that
idle call return immediately; interrupting a lane whose thread is inside
perform-jobs or fetch leaves that call's location untouched, but the
worker's next idle call then returns immediately instead of blocking. -/
theorem interrupt_idle_semantics (s : LaneState) :
    (s.loc = .blockedInIdle → (interruptIdle s).loc = .outside) ∧
    ((s.loc = .inPerformJobs ∨ s.loc = .inFetch) →
      (interruptIdle s).loc = s.loc ∧
      (idleEnter { loc := .outside,
                   interruptFlag := (interruptIdle s).interruptFlag }).loc = .outside) := by
  obtain ⟨loc, flag⟩ := s
  cases loc <;> simp [interruptIdle, idleEnter]

/-- C9 witness: the contract evaluated on a lane blocked in idle and on a
lane inside perform-jobs. -/
theorem interrupt_idle_semantics_witness :
    ((interruptIdle ⟨.blockedInIdle, false⟩).loc = .outside) ∧
    ((interruptIdle ⟨.inPerformJobs, false⟩).loc = .inPerformJobs ∧
      (idleEnter { loc := .outside,
                   interruptFlag := (interruptIdle ⟨.inPerformJobs, false⟩).interruptFlag }).loc
        = .outside) :=
  ⟨(interrupt_idle_semantics ⟨.blockedInIdle, false⟩).1 rfl,
   (interrupt_idle_semantics ⟨.inPerformJobs, false⟩).2 (Or.inl rfl)⟩

/-! ## QR classifier (claims C3 and C4)

Modelled from the spec: the QR-classifier code (Rust module) is not in the
reviewed tree; the model follows spec §4.5/§6 and the result tags the
header defines (DC_QR_ASK_VERIFYCONTACT .. DC_QR_ERROR), including the
documented payload of each tag.  Contact resolution is external to the
pure parse and is abstracted as an environment. -/

/-- The closed set of classifier results, one constructor per DC_QR_*
constant, each carrying the payload the header documents (contact id,
group name, formatted fingerprint, text, URL or error string). -/
inductive QrState
  | askVerifyContact (contactId : Nat)
  | askVerifyGroup (grpName : String)
  | fprOk (contactId : Nat)
  | fprMismatch (contactId : Nat)
  | fprWithoutAddr (fpr : String)
  | addr (contactId : Nat)
  | text (t : String)
  | url (u : String)
  | error (e : String)
deriving DecidableEq, Repr

/-- Numeric tag of a classifier result, as the DC_QR_* constants define. -/
def QrState.tag : QrState → Nat
  | .askVerifyContact _ => 200
  | .askVerifyGroup _ => 202
  | .fprOk _ => 210
  | .fprMismatch _ => 220
  | .fprWithoutAddr _ => 230
  | .addr _ => 320
  | .text _ => 330
  | .url _ => 332
  | .error _ => 400

/-- All DC_QR_* tags. -/
def qrTags : List Nat := [200, 202, 210, 220, 230, 320, 330, 332, 400]

/-- The contact-resolution environment: the id of the contact row created
or reused for a normalized address (spec: one contact row per normalized
address). -/
structure QrEnv where
  lookupContact : String → Nat

/-- Value of a hexadecimal digit, if the character is one. -/
def hexDigitVal (c : Char) : Option Nat :=
  if '0' ≤ c && c ≤ '9' then some (c.toNat - '0'.toNat)
  else if 'A' ≤ c && c ≤ 'F' then some (c.toNat - 'A'.toNat + 10)
  else if 'a' ≤ c && c ≤ 'f' then some (c.toNat - 'a'.toNat + 10)
  else none

/-- Percent-decoding of URI-escaped characters ("%40" becomes "@");
malformed escapes are kept verbatim. -/
def percentDecodeChars : List Char → List Char
  | '%' :: a :: b :: rest =>
    match hexDigitVal a, hexDigitVal b with
    | some ha, some hb => Char.ofNat (16 * ha + hb) :: percentDecodeChars rest
    | _, _ => '%' :: percentDecodeChars (a :: b :: rest)
  | c :: rest => c :: percentDecodeChars rest
  | [] => []

/-- Split a character list at the first occurrence of `c`; the second
component is `none` when `c` does not occur. -/
def splitFirst (c : Char) : List Char → List Char × Option (List Char)
  | [] => ([], none)
  | x :: xs =>
    if x = c then ([], some xs)
    else
      let r := splitFirst c xs
      (x :: r.1, r.2)

/-- Split a character list on every occurrence of `c`. -/
def splitEvery (c : Char) : List Char → List (List Char)
  | [] => [[]]
  | x :: xs =>
    let r := splitEvery c xs
    if x = c then [] :: r
    else
      match r with
      | [] => [[x]]
      | h :: t => (x :: h) :: t

/-- Parse one "key=value" fragment parameter; the value is
percent-decoded. -/
def parseParam (p : List Char) : List Char × List Char :=
  match splitFirst '=' p with
  | (k, some v) => (k, percentDecodeChars v)
  | (k, none) => (k, [])

/-- Look up a fragment parameter by key. -/
def lookupParam (key : String) (params : List (List Char × List Char)) : Option String :=
  match params.find? (fun kv => kv.1 = key.data) with
  | some kv => some (String.mk kv.2)
  | none => none

/-- A well-formed OpenPGP v4 fingerprint: 40 hexadecimal digits (blanks
of a formatted fingerprint are ignored). -/
def validFingerprint (fpr : List Char) : Bool :=
  fpr.length = 40 && fpr.all fun c => (hexDigitVal c).isSome

/-- Modelled from the spec: classify the payload of an OPENPGP4FPR QR
(fingerprint, then optional fragment parameters: a = the peer address,
g = the group-invite name).  A fingerprint with an address and no
group-invite parameter is a verify-contact request carrying the resolved
contact id; with a group-invite parameter it is a verify-group request;
without an address only the fingerprint is returned; a malformed
fingerprint is a parse error. -/
def classifyFpr (env : QrEnv) (rest : List Char) : QrState :=
  let frag := splitFirst '#' rest
  let fpr := frag.1.filter (fun c => c ≠ ' ')
  if validFingerprint fpr then
    let params := (match frag.2 with
      | none => []
      | some f => (splitEvery '&' f).map parseParam)
    match lookupParam "a" params with
    | none => .fprWithoutAddr (String.mk fpr)
    | some a =>
      match lookupParam "g" params with
      | some g => .askVerifyGroup g
      | none => .askVerifyContact (env.lookupContact a)
  else .error "Bad fingerprint"

/-- A plain e-mail address: something@domain with nonempty halves, no
blank and a single at-sign. -/
def isPlainAddr (s : List Char) : Bool :=
  match splitFirst '@' s with
  | (l, some d) =>
    !l.isEmpty && !d.isEmpty && !(s.contains ' ') && !(d.contains '@')
  | (_, none) => false

/-- The schemes the classifier recognizes before falling back to plain
text: the OPENPGP4FPR payload, http/https URLs, mailto and a bare
address. -/
def recognizedScheme (qr : String) : Bool :=
  List.isPrefixOf "OPENPGP4FPR:".data qr.data ||
  List.isPrefixOf "http://".data qr.data ||
  List.isPrefixOf "https://".data qr.data ||
  List.isPrefixOf "mailto:".data qr.data ||
  isPlainAddr qr.data

/-- Modelled from the spec: the QR classifier dc_check_qr.  A pure,
total parse of the scanned string into exactly one tagged result,
defaulting to plain text for anything not matching a recognized
scheme. -/
def dc_check_qr (env : QrEnv) (qr : String) : QrState :=
  if List.isPrefixOf "OPENPGP4FPR:".data qr.data then
    classifyFpr env (qr.data.drop 12)
  else if List.isPrefixOf "http://".data qr.data ||
          List.isPrefixOf "https://".data qr.data then
    .url qr
  else if List.isPrefixOf "mailto:".data qr.data then
    .addr (env.lookupContact (String.mk (qr.data.drop 7)))
  else if isPlainAddr qr.data then
    .addr (env.lookupContact qr)
  else
    .text qr

/-- C3: the classifier is a total function (it never throws: it is
defined for every input string and environment), its result always
carries exactly one tag of the closed DC_QR_* set, and every input that
matches no recognized scheme is classified as plain text. -/
theorem checkQr_total_closed_default (env : QrEnv) (qr : String) :
    (dc_check_qr env qr).tag ∈ qrTags ∧
    (recognizedScheme qr = false → dc_check_qr env qr = .text qr) := by
  constructor
  · cases dc_check_qr env qr <;> simp [QrState.tag, qrTags]
  · intro h
    simp only [recognizedScheme, Bool.or_eq_false_iff] at h
    obtain ⟨⟨⟨⟨h1, h2⟩, h3⟩, h4⟩, h5⟩ := h
    simp [dc_check_qr, h1, h2, h3, h4, h5]

/-- C3 witness: the classifier evaluated on the unrecognized input
"hello world", which is classified as plain text. -/
theorem checkQr_total_closed_default_witness :
    (dc_check_qr ⟨fun _ => 1⟩ "hello world").tag ∈ qrTags ∧
    (recognizedScheme "hello world" = false →
      dc_check_qr ⟨fun _ => 1⟩ "hello world" = .text "hello world") :=
  checkQr_total_closed_default ⟨fun _ => 1⟩ "hello world"

/-- C4: scanning an OPENPGP4FPR QR carrying a fingerprint and the single
fragment parameter a=bob%40example.org yields a verify-contact request
whose id is the contact id resolved for bob@example.org. -/
theorem checkQr_fpr_addr_verifycontact (env : QrEnv) :
    dc_check_qr env
        "OPENPGP4FPR:1234567890ABCDEF1234567890ABCDEF12345678#a=bob%40example.org"
      = .askVerifyContact (env.lookupContact "bob@example.org") := by
  rfl

/-! ## The store projection: chats, messages and the core operations

Modelled from the spec: the chat/message store engine (Rust modules) is
not in the reviewed tree; the rows and operations below follow the data
model of spec §3 and the header documentation of dc_set_draft,
dc_send_text_msg, dc_markseen_msgs, dc_marknoticed_chat, dc_archive_chat
and the location-streaming calls. -/

/-- Message view types (text or not; the draft contract only
distinguishes text from non-text payloads). -/
inductive Viewtype
  | text
  | image
  | file
deriving DecidableEq, BEq, Repr

/-- One message row of the store. -/
structure MsgRow where
  id : Nat
  chatId : Nat
  state : MsgState
  viewtype : Viewtype
  text : String
deriving DecidableEq, BEq, Repr

/-- One chat row of the store.  `blocked` marks the unconfirmed chats
whose messages form the deaddrop (header: "chats flagged with
chats.blocked=2"). -/
structure Chat where
  id : Nat
  members : List Nat
  archived : Bool
  blocked : Bool
deriving DecidableEq, BEq, Repr

/-- The store projection a Context owns: chat rows, message rows, the id
allocator, the SMTP job queue with its lane-interrupt flag, the per-chat
location-streaming deadlines and the last reported position. -/
structure Ctx where
  chats : List Chat
  msgs : List MsgRow
  nextMsgId : Nat
  smtpJobs : List Nat
  smtpInterruptFlag : Bool
  locEnabledUntil : List (Nat × Nat)
  lastLocation : Option (Int × Int × Int)
deriving DecidableEq, Repr

/-- The id a newly inserted message row gets (always nonzero). -/
def freshMsgId (ctx : Ctx) : Nat := ctx.nextMsgId + 1

/-- Selective per-row state update: rows selected by `sel` get the state
`upd` computes, all other rows are untouched. -/
def rowUpdate (sel : MsgRow → Bool) (upd : MsgRow → MsgState) (m : MsgRow) : MsgRow :=
  if sel m then { m with state := upd m } else m

/-- A chat id is a real chat among the given chat rows: it has a row, it
is not one of the reserved special ids (header: ids above
DC_CHAT_ID_LAST_SPECIAL = 9 are real chats) and it is not blocked
(deaddrop). -/
def chatIsRealIn (chats : List Chat) (cid : Nat) : Bool :=
  match chats.find? (fun c => c.id == cid) with
  | some c => decide (9 < cid) && !c.blocked
  | none => false

/-- The draft row predicate of a chat. -/
def isDraftFor (cid : Nat) (m : MsgRow) : Bool :=
  m.chatId == cid && m.state == .outDraft

/-- The draft rows of a chat. -/
def draftsOf (ctx : Ctx) (cid : Nat) : List MsgRow :=
  ctx.msgs.filter (isDraftFor cid)

/-- The payload handed to dc_set_draft (the message object, NULL being
`none`). -/
structure DraftPayload where
  viewtype : Viewtype
  text : String
deriving DecidableEq, Repr

/-- Modelled from the spec: dc_set_draft.  The existing draft of the chat
is always removed; a text payload with nonempty text becomes the new
(single) draft row, while NULL, a non-text payload or an empty text only
deletes (header: "NULL deletes the existing draft ... also
non-text-messages will delete the existing drafts"). -/
def dc_set_draft (ctx : Ctx) (cid : Nat) (payload : Option DraftPayload) : Ctx :=
  let kept := ctx.msgs.filter fun m => !isDraftFor cid m
  match payload with
  | none => { ctx with msgs := kept }
  | some p =>
    if p.viewtype == Viewtype.text && p.text != "" then
      { ctx with
        msgs := kept ++ [⟨freshMsgId ctx, cid, .outDraft, .text, p.text⟩],
        nextMsgId := freshMsgId ctx }
    else { ctx with msgs := kept }

/-- Modelled from the spec: dc_send_text_msg.  A NULL text returns 0 and
changes nothing (header: "Passing NULL as the text causes the function
to return 0"); any non-NULL text — the empty string included — inserts a
pending message row carrying that text, enqueues an SMTP job, flags the
SMTP lane interrupt, and returns the new nonzero message id. -/
def dc_send_text_msg (ctx : Ctx) (cid : Nat) (textToSend : Option String) : Ctx × Nat :=
  match textToSend with
  | none => (ctx, 0)
  | some t =>
    ({ ctx with
        msgs := ctx.msgs ++ [⟨freshMsgId ctx, cid, .outPending, .text, t⟩],
        nextMsgId := freshMsgId ctx,
        smtpJobs := ctx.smtpJobs ++ [freshMsgId ctx],
        smtpInterruptFlag := true }, freshMsgId ctx)

/-- Modelled from the spec: dc_markseen_msgs over a set of message ids.
Each selected incoming message of a real chat becomes seen; a selected
message not in a real chat "is only marked as NOTICED" (header).  The
second component reports whether the call changed anything and so raised
the event. -/
def markseenRow (chats : List Chat) (ids : List Nat) : MsgRow → MsgRow :=
  rowUpdate (fun m => ids.contains m.id)
    (fun m => markseenState (chatIsRealIn chats m.chatId) m.state)

/-- The dc_markseen_msgs call itself: it updates the selected rows and
reports whether anything changed (the event condition). -/
def dc_markseen_msgs (ctx : Ctx) (ids : List Nat) : Ctx × Bool :=
  ({ ctx with msgs := ctx.msgs.map (markseenRow ctx.chats ids) },
   ctx.msgs.any fun m => decide (markseenRow ctx.chats ids m ≠ m))

/-- Modelled from the spec: dc_marknoticed_chat marks every fresh message
of the chat noticed. -/
def dc_marknoticed_chat (ctx : Ctx) (cid : Nat) : Ctx :=
  { ctx with
    msgs := ctx.msgs.map (rowUpdate (fun m => m.chatId == cid) (fun m => noticeState m.state)) }

/-- Modelled from the spec: dc_archive_chat.  Sets or clears the archived
flag of the chat; archiving additionally marks the messages of the chat
noticed (header: "Messages in archived chats are marked as being
noticed, so they do not count as fresh"). -/
def setArchivedRow (cid : Nat) (a : Bool) (c : Chat) : Chat :=
  if c.id == cid then { c with archived := a } else c

def dc_archive_chat (ctx : Ctx) (cid : Nat) (archive : Bool) : Ctx :=
  { ctx with
    chats := ctx.chats.map (setArchivedRow cid archive),
    msgs :=
      if archive then
        ctx.msgs.map (rowUpdate (fun m => m.chatId == cid) (fun m => noticeState m.state))
      else ctx.msgs }

/-- Modelled from the spec: the fetch pipeline projecting one new
incoming message into the store (state fresh). -/
def receiveMsg (ctx : Ctx) (cid : Nat) (t : String) : Ctx :=
  { ctx with
    msgs := ctx.msgs ++ [⟨freshMsgId ctx, cid, .inFresh, .text, t⟩],
    nextMsgId := freshMsgId ctx }

/-- Modelled from the spec: the SMTP job outcome updating one message
state (delivery, unrecoverable failure, or MDN reception). -/
def setMsgState (ctx : Ctx) (msgId : Nat) (upd : MsgState → MsgState) : Ctx :=
  { ctx with
    msgs := ctx.msgs.map (rowUpdate (fun m => m.id == msgId) (fun m => upd m.state)) }

/-- Modelled from the spec: dc_send_locations_to_chat.  A positive
`seconds` arms streaming for the chat until `now + seconds`; zero
disables it. -/
def dc_send_locations_to_chat (ctx : Ctx) (cid seconds now : Nat) : Ctx :=
  if 0 < seconds then
    { ctx with locEnabledUntil :=
        (ctx.locEnabledUntil.filter fun e => !(e.1 == cid)) ++ [(cid, now + seconds)] }
  else
    { ctx with locEnabledUntil := ctx.locEnabledUntil.filter fun e => !(e.1 == cid) }

/-- Modelled from the spec: dc_is_sending_locations_to_chat, with chat id
0 asking whether any chat is streaming.  A chat streams while the current
time is before its armed deadline; once the deadline passes, streaming is
disabled with no further call. -/
def dc_is_sending_locations_to_chat (ctx : Ctx) (cid now : Nat) : Bool :=
  if cid = 0 then ctx.locEnabledUntil.any fun e => decide (now < e.2)
  else ctx.locEnabledUntil.any fun e => e.1 == cid && decide (now < e.2)

/-- Modelled from the spec: dc_set_location records the current position
and returns whether location streaming is still enabled for at least one
chat, so a platform location provider can be stopped cooperatively. -/
def dc_set_location (ctx : Ctx) (latitude longitude accuracy : Int) (now : Nat) :
    Ctx × Bool :=
  ({ ctx with lastLocation := some (latitude, longitude, accuracy) },
   ctx.locEnabledUntil.any fun e => decide (now < e.2))

/-- Every store-mutating operation of the modelled core. -/
inductive Op
  | setDraft (cid : Nat) (payload : Option DraftPayload)
  | sendTextMsg (cid : Nat) (t : Option String)
  | markseenMsgs (ids : List Nat)
  | marknoticedChat (cid : Nat)
  | archiveChat (cid : Nat) (archive : Bool)
  | receive (cid : Nat) (t : String)
  | deliverMsg (msgId : Nat)
  | failMsg (msgId : Nat)
  | mdnReceived (msgId : Nat)
  | sendLocationsToChat (cid seconds now : Nat)
  | setLocation (latitude longitude accuracy : Int) (now : Nat)

/-- The state a core operation leaves the store in. -/
def applyOp (ctx : Ctx) : Op → Ctx
  | .setDraft cid p => dc_set_draft ctx cid p
  | .sendTextMsg cid t => (dc_send_text_msg ctx cid t).1
  | .markseenMsgs ids => (dc_markseen_msgs ctx ids).1
  | .marknoticedChat cid => dc_marknoticed_chat ctx cid
  | .archiveChat cid a => dc_archive_chat ctx cid a
  | .receive cid t => receiveMsg ctx cid t
  | .deliverMsg msgId => setMsgState ctx msgId deliverState
  | .failMsg msgId => setMsgState ctx msgId failState
  | .mdnReceived msgId => setMsgState ctx msgId mdnState
  | .sendLocationsToChat cid s now => dc_send_locations_to_chat ctx cid s now
  | .setLocation la lo acc now => (dc_set_location ctx la lo acc now).1

/-- A chat has at most one draft row. -/
def DraftInv (ctx : Ctx) : Prop :=
  ∀ cid, (ctx.msgs.countP (isDraftFor cid)) ≤ 1

/-! ## Draft exclusivity (claim C6) -/

/-- None of the per-message state updates can produce the draft state
from a non-draft state. -/
theorem state_updates_never_draft :
    (∀ s, noticeState s = .outDraft → s = .outDraft) ∧
    (∀ r s, markseenState r s = .outDraft → s = .outDraft) ∧
    (∀ s, deliverState s = .outDraft → s = .outDraft) ∧
    (∀ s, failState s = .outDraft → s = .outDraft) ∧
    (∀ s, mdnState s = .outDraft → s = .outDraft) := by decide

/-- A selective state update whose update function cannot create the
draft state never turns a non-draft row into a draft row. -/
theorem isDraftFor_rowUpdate (sel : MsgRow → Bool) (upd : MsgRow → MsgState)
    (hupd : ∀ m, upd m = .outDraft → m.state = .outDraft) (cid : Nat) (m : MsgRow) :
    isDraftFor cid (rowUpdate sel upd m) = true → isDraftFor cid m = true := by
  unfold rowUpdate isDraftFor
  by_cases h : sel m = true <;>
    simp [h, Bool.and_eq_true, beq_iff_eq]
  intro h1 h2
  exact ⟨h1, hupd m h2⟩

/-- Mapping such a state update over the store does not increase any
draft count. -/
theorem countP_draft_map_le (l : List MsgRow) (cid : Nat)
    (sel : MsgRow → Bool) (upd : MsgRow → MsgState)
    (hupd : ∀ m, upd m = .outDraft → m.state = .outDraft) :
    (l.map (rowUpdate sel upd)).countP (isDraftFor cid) ≤ l.countP (isDraftFor cid) := by
  rw [List.countP_map]
  exact List.countP_mono_left fun m _ h => isDraftFor_rowUpdate sel upd hupd cid m h

/-- Removing rows does not increase any draft count. -/
theorem countP_draft_filter_le (l : List MsgRow) (p : MsgRow → Bool) (cid : Nat) :
    (l.filter p).countP (isDraftFor cid) ≤ l.countP (isDraftFor cid) := by
  rw [List.countP_filter]
  exact List.countP_mono_left fun m _ h => (Bool.and_eq_true .. ▸ h).1

/-- After removing the drafts of a chat, the store holds none for it. -/
theorem countP_removed_drafts (l : List MsgRow) (cid : Nat) :
    (l.filter fun m => !isDraftFor cid m).countP (isDraftFor cid) = 0 := by
  rw [List.countP_eq_zero]
  intro m hm
  have h := (List.mem_filter.1 hm).2
  simp only [Bool.not_eq_true'] at h
  simp [h]

/-- A draft row for a different chat never counts. -/
theorem isDraftFor_other (cid cid' : Nat) (m : MsgRow) (hne : cid' ≠ cid)
    (hm : m.chatId = cid) : isDraftFor cid' m = false := by
  unfold isDraftFor
  simp [hm, Ne.symm hne]

/-- C6: every chat holds at most one draft row, and the invariant is
preserved by every modelled core operation; a set_draft call with a
nonempty text payload replaces the drafts of the chat wholesale with the
single new draft row, while a NULL, empty or non-text payload deletes
the drafts of the chat without creating one. -/
theorem draft_unique_invariant :
    (∀ ctx op, DraftInv ctx → DraftInv (applyOp ctx op)) ∧
    (∀ ctx cid p, (p.viewtype == Viewtype.text && p.text != "") = true →
        draftsOf (dc_set_draft ctx cid (some p)) cid
          = [⟨freshMsgId ctx, cid, .outDraft, .text, p.text⟩]) ∧
    (∀ ctx cid, draftsOf (dc_set_draft ctx cid none) cid = []) ∧
    (∀ ctx cid p, (p.viewtype == Viewtype.text && p.text != "") = false →
        draftsOf (dc_set_draft ctx cid (some p)) cid = []) := by
  refine ⟨?_, ?_, ?_, ?_⟩
  · intro ctx op h cid
    cases op with
    | setDraft cid0 p =>
      cases p with
      | none => exact le_trans (countP_draft_filter_le ..) (h cid)
      | some p =>
        unfold applyOp dc_set_draft
        by_cases hc : (p.viewtype == Viewtype.text && p.text != "") = true
        · simp only [hc, if_pos]
          rw [List.countP_append]
          by_cases he : cid = cid0
          · subst he
            rw [countP_removed_drafts]
            simpa using List.countP_le_length (isDraftFor cid)
          · have h0 : isDraftFor cid
                (⟨freshMsgId ctx, cid0, .outDraft, .text, p.text⟩ : MsgRow) = false :=
              isDraftFor_other cid0 cid _ he rfl
            simp only [List.countP_cons, List.countP_nil, h0]
            simpa using le_trans (countP_draft_filter_le ..) (h cid)
        · simp only [hc, if_neg, Bool.false_eq_true, not_false_iff]
          exact le_trans (countP_draft_filter_le ..) (h cid)
    | sendTextMsg cid0 t =>
      cases t with
      | none => exact h cid
      | some t =>
        unfold applyOp dc_send_text_msg
        rw [List.countP_append]
        have h0 : isDraftFor cid
            (⟨freshMsgId ctx, cid0, .outPending, .text, t⟩ : MsgRow) = false := by
          unfold isDraftFor; simp
        simp only [List.countP_cons, List.countP_nil, h0]
        simpa using h cid
    | markseenMsgs ids =>
      exact le_trans
        (countP_draft_map_le _ cid _ _
          fun m => state_updates_never_draft.2.1 (chatIsRealIn ctx.chats m.chatId) m.state)
        (h cid)
    | marknoticedChat cid0 =>
      exact le_trans
        (countP_draft_map_le _ cid _ _ fun m => state_updates_never_draft.1 m.state)
        (h cid)
    | archiveChat cid0 a =>
      unfold applyOp dc_archive_chat
      cases a with
      | false => exact h cid
      | true =>
        exact le_trans
          (countP_draft_map_le _ cid _ _ fun m => state_updates_never_draft.1 m.state)
          (h cid)
    | receive cid0 t =>
      unfold applyOp receiveMsg
      rw [List.countP_append]
      have h0 : isDraftFor cid
          (⟨freshMsgId ctx, cid0, .inFresh, .text, t⟩ : MsgRow) = false := by
        unfold isDraftFor; simp
      simp only [List.countP_cons, List.countP_nil, h0]
      simpa using h cid
    | deliverMsg msgId =>
      exact le_trans
        (countP_draft_map_le _ cid _ _ fun m => state_updates_never_draft.2.2.1 m.state)
        (h cid)
    | failMsg msgId =>
      exact le_trans
        (countP_draft_map_le _ cid _ _ fun m => state_updates_never_draft.2.2.2.1 m.state)
        (h cid)
    | mdnReceived msgId =>
      exact le_trans
        (countP_draft_map_le _ cid _ _ fun m => state_updates_never_draft.2.2.2.2 m.state)
        (h cid)
    | sendLocationsToChat cid0 s now =>
      unfold applyOp dc_send_locations_to_chat
      by_cases hs : 0 < s <;> simp only [hs, if_pos, if_neg, not_false_iff] <;> exact h cid
    | setLocation la lo acc now =>
      exact h cid
  · intro ctx cid p hp
    unfold draftsOf dc_set_draft
    simp only [hp, if_pos]
    rw [List.filter_append]
    have hnil : (ctx.msgs.filter fun m => !isDraftFor cid m).filter (isDraftFor cid) = [] := by
      simp [List.filter_filter]
    have hone : isDraftFor cid
        (⟨freshMsgId ctx, cid, .outDraft, .text, p.text⟩ : MsgRow) = true := by
      unfold isDraftFor; simp
    simp [hnil, hone]
  · intro ctx cid
    unfold draftsOf dc_set_draft
    simp [List.filter_filter]
  · intro ctx cid p hp
    unfold draftsOf dc_set_draft
    simp only [hp, Bool.false_eq_true, if_neg, not_false_iff]
    simp [List.filter_filter]

/-! ## Archiving round trip (claim C5) -/

/-- A chat row exists for the id. -/
def chatExists (ctx : Ctx) (cid : Nat) : Bool :=
  ctx.chats.any fun c => c.id == cid

/-- The chat appears in the default chat listing: it has a row and is
not archived (header: "Archived chats are not included in the default
chatlist"). -/
def inDefaultChatlist (ctx : Ctx) (cid : Nat) : Bool :=
  ctx.chats.any fun c => c.id == cid && !c.archived

/-- The membership set of a chat. -/
def membersOf (ctx : Ctx) (cid : Nat) : List Nat :=
  ((ctx.chats.find? fun c => c.id == cid).map Chat.members).getD []

/-- Archiving then unarchiving leaves the chat unarchived, so it is
listed by default exactly when its row exists. -/
theorem archive_roundtrip_any (l : List Chat) (cid : Nat) :
    ((l.map (setArchivedRow cid true)).map (setArchivedRow cid false)).any
      (fun c => c.id == cid && !c.archived)
    = l.any fun c => c.id == cid := by
  rw [List.map_map, List.any_map]
  have hf : ((fun c => c.id == cid && !c.archived) ∘
        (setArchivedRow cid false ∘ setArchivedRow cid true))
      = fun c => c.id == cid :=
    funext fun c => by
      by_cases h : c.id = cid <;> simp [Function.comp, setArchivedRow, h]
  rw [hf]

/-- Archiving then unarchiving preserves each chat's membership. -/
theorem archive_roundtrip_find (l : List Chat) (cid qid : Nat) :
    (((l.map (setArchivedRow cid true)).map (setArchivedRow cid false)).find?
        fun c => c.id == qid).map Chat.members
    = (l.find? fun c => c.id == qid).map Chat.members := by
  rw [List.map_map, List.find?_map]
  have hp : ((fun c : Chat => c.id == qid) ∘
        (setArchivedRow cid false ∘ setArchivedRow cid true))
      = fun c : Chat => c.id == qid :=
    funext fun c => by
      by_cases h : c.id = cid <;> simp [Function.comp, setArchivedRow, h]
  rw [hp, Option.map_map]
  have hm : (Chat.members ∘ (setArchivedRow cid false ∘ setArchivedRow cid true))
      = Chat.members :=
    funext fun c => by
      by_cases h : c.id = cid <;> simp [Function.comp, setArchivedRow, h]
  rw [hm]

/-- C5 (amended): archiving then unarchiving a chat restores its
visibility in the default chat listing (it is listed afterwards whenever
its row exists) and leaves the membership set unchanged; the message
states are unchanged except that, as archiving marks the messages of the
chat noticed, a fresh message of the chat ends up noticed. -/
theorem archive_roundtrip_amended (ctx : Ctx) (cid : Nat) :
    (chatExists ctx cid = true →
      inDefaultChatlist (dc_archive_chat (dc_archive_chat ctx cid true) cid false) cid
        = true) ∧
    membersOf (dc_archive_chat (dc_archive_chat ctx cid true) cid false) cid
      = membersOf ctx cid ∧
    (dc_archive_chat (dc_archive_chat ctx cid true) cid false).msgs
      = ctx.msgs.map (rowUpdate (fun m => m.chatId == cid) fun m => noticeState m.state) := by
  refine ⟨?_, ?_, rfl⟩
  · intro h
    unfold inDefaultChatlist dc_archive_chat
    unfold chatExists at h
    rw [archive_roundtrip_any]
    exact h
  · unfold membersOf dc_archive_chat
    rw [archive_roundtrip_find]

/-- The store of the C5 counterexample: one unarchived chat (id 10,
members 1 and 2) holding one fresh incoming message. -/
def ctxC5 : Ctx :=
  { chats := [⟨10, [1, 2], false, false⟩],
    msgs := [⟨5, 10, .inFresh, .text, "hi"⟩],
    nextMsgId := 5, smtpJobs := [], smtpInterruptFlag := false,
    locEnabledUntil := [], lastLocation := none }

/-- C5 counterexample: archiving then unarchiving chat 10 restores its
default-listing visibility and membership, but the state of message 5 is
not unchanged — it moved from fresh to noticed, because archiving marks
the messages of the chat noticed (header doc of dc_archive_chat). -/
theorem archive_roundtrip_fresh_cex :
    inDefaultChatlist (dc_archive_chat (dc_archive_chat ctxC5 10 true) 10 false) 10 = true ∧
    membersOf (dc_archive_chat (dc_archive_chat ctxC5 10 true) 10 false) 10
      = membersOf ctxC5 10 ∧
    (dc_archive_chat (dc_archive_chat ctxC5 10 true) 10 false).msgs
      = [⟨5, 10, .inNoticed, .text, "hi"⟩] ∧
    ctxC5.msgs = [⟨5, 10, .inFresh, .text, "hi"⟩] ∧
    MsgState.inNoticed ≠ MsgState.inFresh := by decide

/-! ## Mark-seen idempotence (claim C7) -/

/-- Marking seen twice is the same as marking seen once, per state. -/
theorem markseenState_idem :
    ∀ r s, markseenState r (markseenState r s) = markseenState r s := by decide

/-- In a real chat, a marked incoming message is seen. -/
theorem markseenState_incoming_real :
    ∀ s, isIncoming (markseenState true s) = true → markseenState true s = .inSeen := by
  decide

/-- The per-row mark-seen update is idempotent. -/
theorem markseenRow_idem (chats : List Chat) (ids : List Nat) (m : MsgRow) :
    markseenRow chats ids (markseenRow chats ids m) = markseenRow chats ids m := by
  unfold markseenRow rowUpdate
  by_cases h : m.id ∈ ids <;> simp [h, markseenState_idem]

/-- Mapping the mark-seen update twice equals mapping it once. -/
theorem map_markseenRow_idem (chats : List Chat) (ids : List Nat) (l : List MsgRow) :
    (l.map (markseenRow chats ids)).map (markseenRow chats ids)
      = l.map (markseenRow chats ids) := by
  rw [List.map_map]
  exact List.map_congr_left fun m _ => markseenRow_idem chats ids m

/-- A selected row is updated to the marked state. -/
theorem markseenRow_result (chats : List Chat) (ids : List Nat) (m : MsgRow)
    (h : m.id ∈ ids) :
    markseenRow chats ids m
      = { m with state := markseenState (chatIsRealIn chats m.chatId) m.state } := by
  unfold markseenRow rowUpdate
  simp [h]

/-- An unselected row is untouched. -/
theorem markseenRow_skip (chats : List Chat) (ids : List Nat) (m : MsgRow)
    (h : ¬ m.id ∈ ids) : markseenRow chats ids m = m := by
  unfold markseenRow rowUpdate
  simp [h]

/-- After one mark-seen pass nothing changes any more, so the follow-up
call finds no row to update. -/
theorem any_markseenRow_changed_false (chats : List Chat) (ids : List Nat)
    (l : List MsgRow) :
    ((l.map (markseenRow chats ids)).any fun m => decide (markseenRow chats ids m ≠ m))
      = false := by
  rw [List.any_map, List.any_eq_false]
  intro m _
  simp [Function.comp, markseenRow_idem]

/-- C7 (amended): the second of two identical mark-seen calls changes
nothing and raises no event (so across the two calls the event is raised
at most once), and after the first call every selected incoming message
of a real chat is seen; a message not in a real chat is only marked
noticed, not seen (header doc of dc_markseen_msgs), so the original
claim's "every message ends seen" fails for such messages. -/
theorem markseen_idempotent_amended (ctx : Ctx) (ids : List Nat) :
    dc_markseen_msgs (dc_markseen_msgs ctx ids).1 ids
      = ((dc_markseen_msgs ctx ids).1, false) ∧
    ∀ m ∈ (dc_markseen_msgs ctx ids).1.msgs,
      ids.contains m.id = true → isIncoming m.state = true →
      chatIsRealIn ctx.chats m.chatId = true → m.state = .inSeen := by
  constructor
  · show ({ { ctx with msgs := ctx.msgs.map (markseenRow ctx.chats ids) } with
        msgs := (ctx.msgs.map (markseenRow ctx.chats ids)).map (markseenRow ctx.chats ids) },
      (ctx.msgs.map (markseenRow ctx.chats ids)).any
        fun m => decide (markseenRow ctx.chats ids m ≠ m))
      = ({ ctx with msgs := ctx.msgs.map (markseenRow ctx.chats ids) }, false)
    rw [map_markseenRow_idem, any_markseenRow_changed_false]
  · intro m hm hid hinc hreal
    replace hm : m ∈ ctx.msgs.map (markseenRow ctx.chats ids) := hm
    obtain ⟨m0, _, rfl⟩ := List.mem_map.1 hm
    by_cases h : m0.id ∈ ids
    · rw [markseenRow_result ctx.chats ids m0 h] at hinc hreal ⊢
      replace hreal : chatIsRealIn ctx.chats m0.chatId = true := hreal
      replace hinc :
          isIncoming (markseenState (chatIsRealIn ctx.chats m0.chatId) m0.state) = true :=
        hinc
      show markseenState (chatIsRealIn ctx.chats m0.chatId) m0.state = MsgState.inSeen
      rw [hreal] at hinc ⊢
      exact markseenState_incoming_real m0.state hinc
    · rw [markseenRow_skip ctx.chats ids m0 h] at hid
      simp only [List.contains_eq_any_beq, List.any_eq_true, beq_iff_eq] at hid
      obtain ⟨x, hx, rfl⟩ := hid
      exact absurd hx h

/-- The store of the C7 counterexample: a blocked (deaddrop) chat 12
holding one fresh contact-request message. -/
def ctxC7 : Ctx :=
  { chats := [⟨12, [1, 3], false, true⟩],
    msgs := [⟨5, 12, .inFresh, .text, "hey"⟩],
    nextMsgId := 5, smtpJobs := [], smtpInterruptFlag := false,
    locEnabledUntil := [], lastLocation := none }

/-- C7 counterexample: marking message 5 (a contact request, whose chat
is blocked and so not a real chat) seen twice leaves it noticed, not
seen, after both calls — the header states such messages are "only
marked as NOTICED". -/
theorem markseen_deaddrop_cex :
    (dc_markseen_msgs (dc_markseen_msgs ctxC7 [5]).1 [5]).1.msgs
      = [⟨5, 12, .inNoticed, .text, "hey"⟩] ∧
    MsgState.inNoticed ≠ MsgState.inSeen := by decide

/-! ## Location streaming (claim C8) -/

/-- Entries of other chats never satisfy a per-chat streaming query. -/
theorem any_other_chats_false (l : List (Nat × Nat)) (cid : Nat)
    (q : Nat × Nat → Bool) :
    ((l.filter fun e => !(e.1 == cid)).any fun e => e.1 == cid && q e) = false := by
  rw [List.any_eq_false]
  intro e he
  have h := (List.mem_filter.1 he).2
  simp only [Bool.not_eq_true'] at h
  simp [h]

/-- C8: arming location streaming for a chat for `s` seconds at time
`now` means that at any time from `now + s` on the chat no longer
streams — with no explicit disable call; and every dc_set_location call
returns exactly whether at least one chat still streams at that moment
(so it returns false when streaming is disabled for all chats). -/
theorem location_streaming_auto_disable :
    (∀ ctx cid s now t, cid ≠ 0 → 0 < s → now + s ≤ t →
        dc_is_sending_locations_to_chat (dc_send_locations_to_chat ctx cid s now) cid t
          = false) ∧
    (∀ ctx la lo acc now,
        (dc_set_location ctx la lo acc now).2
          = dc_is_sending_locations_to_chat ctx 0 now) := by
  constructor
  · intro ctx cid s now t hcid hs ht
    unfold dc_send_locations_to_chat dc_is_sending_locations_to_chat
    rw [if_neg hcid, if_pos hs]
    show ((ctx.locEnabledUntil.filter fun e => !(e.1 == cid)) ++ [(cid, now + s)]).any
        (fun e => e.1 == cid && decide (t < e.2)) = false
    rw [List.any_append, any_other_chats_false]
    simp [Nat.not_lt.2 ht]
  · intro ctx la lo acc now
    unfold dc_set_location dc_is_sending_locations_to_chat
    simp

/-! ## NULL versus empty text at dc_send_text_msg (claim C10) -/

/-- C10: dc_send_text_msg with NULL text returns 0 and changes nothing,
while with an empty (non-NULL) string it inserts a pending message
carrying the empty text, enqueues an SMTP job, interrupts the SMTP lane
and returns the new nonzero message id. -/
theorem send_text_msg_null_vs_empty :
    (∀ ctx cid, dc_send_text_msg ctx cid none = (ctx, 0)) ∧
    (∀ ctx cid,
        (dc_send_text_msg ctx cid (some "")).2 = freshMsgId ctx ∧
        (dc_send_text_msg ctx cid (some "")).2 ≠ 0 ∧
        (dc_send_text_msg ctx cid (some "")).1.msgs
          = ctx.msgs ++ [⟨freshMsgId ctx, cid, .outPending, .text, ""⟩] ∧
        (dc_send_text_msg ctx cid (some "")).1.smtpJobs
          = ctx.smtpJobs ++ [freshMsgId ctx] ∧
        (dc_send_text_msg ctx cid (some "")).1.smtpInterruptFlag = true) := by
  constructor
  · intro ctx cid; rfl
  · intro ctx cid
    refine ⟨rfl, ?_, rfl, rfl, rfl⟩
    unfold dc_send_text_msg freshMsgId
    exact Nat.succ_ne_zero _

end DeltaChat
